import Mathlib

set_option linter.unusedVariables false

/- Shallow embedding of `src/dashboard/src/resourceManager/ResourceManager.js`:
   the `Resource` class (constructor, `update`, `fetch`, `on`, `once`, `emit`,
   `cancel`) and the orchestrator method `ResourceManager.updateResource`.

   JavaScript values are modelled by `JSVal`.  Function values (event handlers,
   `condition` closures) are opaque: a handler is a `JSVal.fn id`, identified by
   its id the way JavaScript identifies function objects by reference.  A
   handler's only modelled effect is that it may throw (`hsem` gives the thrown
   value, if any); a condition closure's only modelled effect is its boolean
   return value (`condSem`).  The transport `call` is the external collaborator
   of the spec: an async RPC that resolves with data or rejects with an error
   carrying a `messages : list<string>`; one settled call is a `CallOutcome`. -/

/-- A JavaScript value.  `fn id` is a function object, identified by reference. -/
inductive JSVal : Type where
  | null : JSVal
  | undefined : JSVal
  | bool : Bool → JSVal
  | num : Int → JSVal
  | str : String → JSVal
  | arr : List JSVal → JSVal
  | obj : List (String × JSVal) → JSVal
  | fn : Nat → JSVal

/-- JavaScript strict equality `===`: structural on primitives, reference
equality on functions (their ids), and reference equality on objects/arrays —
two separately constructed object or array values are distinct references, so
the embedding conservatively returns `false` for them.  The source only ever
compares handler values (functions) and `method` values (strings) with `===`. -/
def jsStrictEq : JSVal → JSVal → Bool
  | .null, .null => true
  | .undefined, .undefined => true
  | .bool a, .bool b => a == b
  | .num a, .num b => a == b
  | .str a, .str b => a == b
  | .fn a, .fn b => a == b
  | _, _ => false

instance : BEq JSVal := ⟨jsStrictEq⟩

/-- JavaScript truthiness: `null`, `undefined`, `false`, `0`, `""` are falsy;
arrays, objects and functions are truthy. -/
def truthy : JSVal → Bool
  | .null => false
  | .undefined => false
  | .bool b => b
  | .num n => !(n == 0)
  | .str s => !(s == "")
  | .arr _ => true
  | .obj _ => true
  | .fn _ => true

/-- JavaScript `a || b`. -/
def jsOr (a b : JSVal) : JSVal := if truthy a then a else b

/-- `Array.isArray`. -/
def jsIsArray : JSVal → Bool
  | .arr _ => true
  | _ => false

/-- How `Array.prototype.concat` treats one argument: an array is spread into
its elements, any other value contributes itself. -/
def jsSpread : JSVal → List JSVal
  | .arr xs => xs
  | v => [v]

/-- `list.concat(v)` for a JavaScript array `list`: appends `v`'s spread. -/
def jsConcatOne (l : List JSVal) (v : JSVal) : List JSVal := l ++ jsSpread v

/-- `String.prototype.startsWith`. -/
def jsStartsWith (s p : String) : Bool := p.data.isPrefixOf s.data

/-- Property read `v[k]`: `undefined` when absent or when `v` has no string
-keyed properties relevant here. -/
def getProp (v : JSVal) (k : String) : JSVal :=
  match v with
  | .obj fields =>
    match List.lookup k fields with
    | some x => x
    | none => .undefined
  | _ => .undefined

/-- `Object.keys`, in insertion order. -/
def objKeys : JSVal → List String
  | .obj fields => fields.map Prod.fst
  | _ => []

/-- The normalization both the constructor and `update` perform:
`if (typeof options == 'string') options = { method: options, auto: true }`. -/
def normalizeOptions : JSVal → JSVal
  | .str s => .obj [("method", .str s), ("auto", .bool true)]
  | o => o

/-- The stored `condition` closure: the default `() => true` installed when the
config's `condition` is falsy, or the user-supplied value. -/
inductive CondVal : Type where
  | default : CondVal
  | user : JSVal → CondVal

/-- Calling the stored condition; `condSem` gives the return value of a
user-supplied closure. -/
def evalCond (condSem : JSVal → Bool) : CondVal → Bool
  | .default => true
  | .user v => condSem v

/-- One settled invocation of the external `call` collaborator: it resolves
with data, or rejects with an error object carrying `messages : list<string>`
(the collaborator contract stated in the spec, section 6). -/
inductive CallOutcome : Type where
  | ok : JSVal → CallOutcome
  | err : List String → CallOutcome

/-- Property read on a string-keyed table (`table[k] ?? default`). -/
def aGet {β : Type} (t : List (String × β)) (k : String) (d : β) : β :=
  (List.lookup k t).getD d

/-- Property write `table[k] = v` on a plain object: overwrite in place if the
key exists, insert at the end otherwise. -/
def aSet {β : Type} : List (String × β) → String → β → List (String × β)
  | [], k, v => [(k, v)]
  | (k', v') :: rest, k, v =>
    if k' == k then (k, v) :: rest else (k', v') :: aSet rest k v

/-- The `Resource` instance state.  `method/params/auto/keepData/paged/data/
error` hold the JavaScript values the source stores; `condition` the stored
closure; `loading` the boolean flag; `lastLoaded` the `new Date()` timestamp
(a `Nat` time, `none` before any fetch settles); `listeners`/`onceListeners`
the two handler tables (plain objects mapping key → array of handlers). -/
structure Resource : Type where
  method : JSVal
  params : JSVal
  auto : JSVal
  keepData : JSVal
  condition : CondVal
  paged : JSVal
  listeners : List (String × List JSVal)
  onceListeners : List (String × List JSVal)
  data : JSVal
  error : JSVal
  loading : Bool
  lastLoaded : Option Nat

/-- `this.listeners[event] = (this.listeners[event] || []).concat(handler)`. -/
def onAdd (t : List (String × List JSVal)) (event : String) (handler : JSVal) :
    List (String × List JSVal) :=
  aSet t event (jsConcatOne (aGet t event []) handler)

/-- `Resource.on(event, handler)`: appends to the persistent table under the
given key, verbatim, and returns `this`. -/
def Resource.on (r : Resource) (event : String) (handler : JSVal) : Resource :=
  { r with listeners := onAdd r.listeners event handler }

/-- `Resource.once(event, handler)`: appends to the once table under the given
key, verbatim, and returns `this`. -/
def Resource.once (r : Resource) (event : String) (handler : JSVal) : Resource :=
  { r with onceListeners := onAdd r.onceListeners event handler }

/-- `Resource.cancel()`: an empty body. -/
def Resource.cancel (r : Resource) : Resource := r

/-- The raw invocation `handler.call(vm, ...args)`: throws the value `hsem`
assigns to this handler, if any.  Args and return value are not modelled; a
handler's only modelled effect is the exception it may throw. -/
def callHandler (hsem : JSVal → Option JSVal) (h : JSVal) : Except JSVal Unit :=
  match hsem h with
  | some e => .error e
  | none => .ok ()

/-- `runHandler` from `emit`: `try { handler.call(vm, ...args) } catch (error)
{ console.error(error) }` — the exception is caught; the returned list is what
was passed to `console.error`. -/
def runHandler (hsem : JSVal → Option JSVal) (h : JSVal) : List JSVal :=
  match callHandler hsem h with
  | .ok _ => []
  | .error e => [e]

/-- The persistent-handler loop of `emit`:
`(this.listeners[key] || []).forEach(handler => runHandler(handler))`.
Returns the invocation sequence and the concatenated `console.error` log. -/
def emitOnList (hsem : JSVal → Option JSVal) : List JSVal → List JSVal × List JSVal
  | [] => ([], [])
  | h :: rest =>
    let lg := runHandler hsem h
    let out := emitOnList hsem rest
    (h :: out.1, lg ++ out.2)

/-- The once-handler loop of `emit`:
`arr.forEach(handler => { runHandler(handler); arr.splice(arr.indexOf(handler), 1); })`.
`forEach` caches the initial length (the fuel), visits indices `k = 0, 1, …`
of the live array, skipping indices the shrinking array no longer has; the
splice removes the first `===`-equal occurrence.  Returns
`(invocation sequence, console.error log, final contents of the array)`. -/
def emitOnceGo (hsem : JSVal → Option JSVal) :
    List JSVal → Nat → Nat → List JSVal × List JSVal × List JSVal
  | cur, _, 0 => ([], [], cur)
  | cur, k, fuel + 1 =>
    match cur[k]? with
    | none => emitOnceGo hsem cur (k + 1) fuel
    | some h =>
      let lg := runHandler hsem h
      let out := emitOnceGo hsem (cur.erase h) (k + 1) fuel
      (h :: out.1, lg ++ out.2.1, out.2.2)

/-- The observable outcome of one `emit`: the resource afterwards, the
handlers invoked in order, and the `console.error` log. -/
structure EmitOut : Type where
  res : Resource
  invoked : List JSVal
  logs : List JSVal

/-- `Resource.emit(event, ...args)`: computes `key = 'on' + event`, runs every
persistent handler under `key`, then runs the once loop on the once array under
`key` (when one exists), each invocation isolated by `runHandler`. -/
def Resource.emit (hsem : JSVal → Option JSVal) (r : Resource) (event : String) :
    EmitOut :=
  let key := "on" ++ event
  let pl := emitOnList hsem (aGet r.listeners key [])
  match List.lookup key r.onceListeners with
  | none => ⟨r, pl.1, pl.2⟩
  | some a =>
    let og := emitOnceGo hsem a 0 a.length
    ⟨{ r with onceListeners := aSet r.onceListeners key og.2.2 },
      pl.1 ++ og.1, pl.2 ++ og.2.1⟩

/-- The observable outcome of one `fetch`: the resource afterwards, the events
emitted with their argument, the handlers invoked, and the console log.
`fetch` is a total function of the settled call outcome: a rejection of the
collaborator is consumed by the `catch` block and never re-thrown, so no
exception reaches the caller of `fetch`. -/
structure FetchOut : Type where
  res : Resource
  emitted : List (String × JSVal)
  invoked : List JSVal
  logs : List JSVal

/-- `Resource.fetch()`, given the settled outcome of
`await call(this.method, this.params)` and the current time `now`.
Short-circuits when `!this.condition()`; otherwise sets `loading`, stores the
(possibly page-concatenated) data or the newline-joined error messages, emits
`Success`/`Error`, and finally sets `lastLoaded` and `loading = false`. -/
def Resource.fetch (hsem : JSVal → Option JSVal) (condSem : JSVal → Bool)
    (r : Resource) (outcome : CallOutcome) (now : Nat) : FetchOut :=
  if !(evalCond condSem r.condition) then ⟨r, [], [], []⟩
  else
    let r1 := { r with loading := true }
    match outcome with
    | .ok d =>
      let newData :=
        if jsIsArray d && truthy r1.paged then
          JSVal.arr (jsSpread (jsOr r1.data (JSVal.arr [])) ++ jsSpread d)
        else d
      let r2 := { r1 with data := newData }
      let e := Resource.emit hsem r2 "Success"
      ⟨{ e.res with lastLoaded := some now, loading := false },
        [("Success", r2.data)], e.invoked, e.logs⟩
    | .err msgs =>
      let estr := JSVal.str (String.intercalate "\n" msgs)
      let r2 := { r1 with error := estr }
      let e := Resource.emit hsem r2 "Error"
      ⟨{ e.res with lastLoaded := some now, loading := false },
        [("Error", estr)], e.invoked, e.logs⟩

/-- `Resource.reload()`: `return this.fetch()`. -/
def Resource.reload (hsem : JSVal → Option JSVal) (condSem : JSVal → Bool)
    (r : Resource) (outcome : CallOutcome) (now : Nat) : FetchOut :=
  Resource.fetch hsem condSem r outcome now

/-- `Resource.submit()`: `return this.fetch()`. -/
def Resource.submit (hsem : JSVal → Option JSVal) (condSem : JSVal → Bool)
    (r : Resource) (outcome : CallOutcome) (now : Nat) : FetchOut :=
  Resource.fetch hsem condSem r outcome now

/-- `Resource.update(options, initialValue)`: re-normalizes, throws when
`this.method && options.method && options.method !== this.method`, otherwise
resets params/auto/keepData/condition/paged, rebuilds both listener tables from
empty — registering every config key that starts with `'on'` through `on` —
and resets data/error/loading/lastLoaded.  The thrown `Error` is the
`Except.error` case; the throw precedes every field assignment in the source,
so an erroring update carries no mutated state. -/
def Resource.update (r : Resource) (options₀ : JSVal) (initialValue : JSVal) :
    Except String Resource :=
  let options := normalizeOptions options₀
  if truthy r.method && truthy (getProp options "method")
      && !(jsStrictEq (getProp options "method") r.method) then
    .error "[Resource Manager]: method cannot change for the same resource"
  else
    let listenerKeys := (objKeys options).filter (fun k => jsStartsWith k "on")
    let ls := listenerKeys.foldl (fun t k => onAdd t k (getProp options k)) []
    .ok { r with
      params := jsOr (getProp options "params") .null,
      auto := jsOr (getProp options "auto") (.bool false),
      keepData := jsOr (getProp options "keepData") (.bool false),
      condition :=
        if truthy (getProp options "condition") then
          CondVal.user (getProp options "condition")
        else CondVal.default,
      paged := jsOr (getProp options "paged") (.bool false),
      listeners := ls,
      onceListeners := [],
      data := jsOr initialValue (jsOr (getProp options "default") .null),
      error := .null,
      loading := false,
      lastLoaded := none }

/-- The `Resource` constructor: normalizes, throws when no truthy `method` is
present, stores `this.method = options.method` and finishes through `update`.
The pre-`update` fields below are placeholders for the yet-unassigned JS
fields; `update` overwrites every one of them before any read. -/
def Resource.construct (options₀ : JSVal) (initialValue : JSVal) :
    Except String Resource :=
  let options := normalizeOptions options₀
  if !(truthy (getProp options "method")) then
    .error "[Resource Manager]: method is required to define a resource"
  else
    Resource.update
      { method := getProp options "method", params := .null, auto := .bool false,
        keepData := .bool false, condition := .default, paged := .bool false,
        listeners := [], onceListeners := [], data := .null, error := .null,
        loading := false, lastLoaded := none }
      options initialValue

/-- The orchestrator state the claims touch: its `resources` mapping. -/
structure RMState : Type where
  resources : List (String × Resource)

/-- The body `updateResource` runs once `resource` names the (existing or
freshly constructed and registered) instance: snapshot `data`, `cancel()` when
an `oldValue` was present, `update(newValue)`, restore the snapshot when
`keepData` is truthy, and report whether `auto` triggered `reload()` (the
returned flag; the fetch itself is modelled by `Resource.fetch`). -/
def updateResourceCore (st : RMState) (key : String) (resource : Resource)
    (newValue oldValue : JSVal) : Except String (RMState × Bool) :=
  let oldData := resource.data
  let resource := if truthy oldValue then resource.cancel else resource
  match resource.update newValue .undefined with
  | .error e => .error e
  | .ok resource =>
    let resource :=
      if truthy resource.keepData then { resource with data := oldData }
      else resource
    .ok ({ resources := aSet st.resources key resource }, truthy resource.auto)

/-- `ResourceManager.updateResource(key, newValue, oldValue)`: reuse the
Resource registered under `key`, or construct one from `newValue` and register
it (`this._vm.$set(this.resources, key, resource)`), then run the update body. -/
def ResourceManager.updateResource (st : RMState) (key : String)
    (newValue oldValue : JSVal) : Except String (RMState × Bool) :=
  match List.lookup key st.resources with
  | some resource => updateResourceCore st key resource newValue oldValue
  | none =>
    match Resource.construct newValue .undefined with
    | .error e => .error e
    | .ok resource => updateResourceCore st key resource newValue oldValue

/-- The even-indexed elements of a list (positions 0, 2, 4, …). -/
def evens {α : Type} : List α → List α
  | [] => []
  | [a] => [a]
  | a :: _ :: rest => a :: evens rest

/-- The odd-indexed elements of a list (positions 1, 3, 5, …). -/
def odds {α : Type} : List α → List α
  | [] => []
  | _ :: rest => evens rest

/- Concrete fixtures used by witnesses and counterexamples. -/

/-- Handler semantics under which no handler throws. -/
def hsemNone : JSVal → Option JSVal := fun _ => none

/-- Handler semantics under which every handler throws the string `"boom"`. -/
def hsemBoom : JSVal → Option JSVal := fun _ => some (JSVal.str "boom")

/-- Condition semantics: every user condition closure returns `false`. -/
def condSemFalse : JSVal → Bool := fun _ => false

/-- Condition semantics: every user condition closure returns `true`. -/
def condSemTrue : JSVal → Bool := fun _ => true

/-- A freshly initialized resource with method `"m"` and no listeners: the
state `new Resource(vm, { method: 'm' })` produces. -/
def resEmpty : Resource :=
  { method := JSVal.str "m", params := JSVal.null, auto := JSVal.bool false,
    keepData := JSVal.bool false, condition := CondVal.default,
    paged := JSVal.bool false, listeners := [], onceListeners := [],
    data := JSVal.null, error := JSVal.null, loading := false, lastLoaded := none }

/-- `resEmpty` after `once('onSuccess', f1); once('onSuccess', f2)`. -/
def resOnce2 : Resource :=
  (resEmpty.once "onSuccess" (JSVal.fn 1)).once "onSuccess" (JSVal.fn 2)

/-- A resource whose condition is a user closure (`fn 0`). -/
def resCond : Resource := { resEmpty with condition := CondVal.user (JSVal.fn 0) }

/-- The resource `new Resource(vm, { method: 'm', paged: true })` produces. -/
def pagedRes : Resource :=
  (Resource.construct (JSVal.obj [("method", JSVal.str "m"), ("paged", JSVal.bool true)])
    JSVal.undefined).toOption.getD resEmpty

/-- The resource `new Resource(vm, { method: 'm', onSuccess: fn i,
onceSuccess: fn j })` produces. -/
def c8res (i j : Nat) : Resource :=
  (Resource.construct
    (JSVal.obj [("method", JSVal.str "m"), ("onSuccess", JSVal.fn i),
      ("onceSuccess", JSVal.fn j)])
    JSVal.undefined).toOption.getD resEmpty

/-- The resource `new Resource(vm, { method: 'm', onceSuccess: fn 3 })`
produces. -/
def c8fix : Resource :=
  (Resource.construct
    (JSVal.obj [("method", JSVal.str "m"), ("onceSuccess", JSVal.fn 3)])
    JSVal.undefined).toOption.getD resEmpty

/-- An existing resource holding data `{x: 1}`. -/
def resKeep : Resource := { resEmpty with data := JSVal.obj [("x", JSVal.num 1)] }

/-- An orchestrator state with `resKeep` registered under key `"search"`. -/
def stKeep : RMState := ⟨[("search", resKeep)]⟩

/-- A new config for the same method that turns on `keepData` and changes only
`params`. -/
def nvKeep : JSVal :=
  JSVal.obj [("method", JSVal.str "m"), ("keepData", JSVal.bool true),
    ("params", JSVal.obj [("q", JSVal.num 2)])]

/-- The resource `update(nvKeep)` produces from `resKeep`. -/
def ruKeep : Resource :=
  (Resource.update resKeep nvKeep JSVal.undefined).toOption.getD resEmpty

/-- `ruKeep` after the orchestrator's `keepData` snapshot restore. -/
def ruKeepFinal : Resource :=
  if truthy ruKeep.keepData then { ruKeep with data := resKeep.data } else ruKeep

/-- A config with falsy `params` and `default` values. -/
def cfgFalsy : JSVal :=
  JSVal.obj [("method", JSVal.str "m"), ("params", JSVal.num 0),
    ("default", JSVal.str "")]

/-- The resource `update(cfgFalsy, false)` produces from `resEmpty`. -/
def ruFalsy : Resource :=
  (Resource.update resEmpty cfgFalsy (JSVal.bool false)).toOption.getD resEmpty

/-- A config whose method `"b"` conflicts with an existing method `"m"`. -/
def cfgMethodB : JSVal := JSVal.obj [("method", JSVal.str "b")]

/- Helper lemmas. -/

/-- Writing a key then reading it back yields the written value. -/
theorem lookup_aSet_self {β : Type} (t : List (String × β)) (k : String) (v : β) :
    List.lookup k (aSet t k v) = some v := by
  induction t with
  | nil => simp [aSet, List.lookup]
  | cons p rest ih =>
    obtain ⟨k', v'⟩ := p
    by_cases h : k' = k
    · subst h; simp [aSet, List.lookup]
    · have hb : (k' == k) = false := beq_eq_false_iff_ne.mpr h
      have hb2 : (k == k') = false := beq_eq_false_iff_ne.mpr (fun e => h e.symm)
      simp [aSet, hb, List.lookup, hb2, ih]

/-- `aGet` after `aSet` at the same key. -/
theorem aGet_aSet_self {β : Type} (t : List (String × β)) (k : String) (v d : β) :
    aGet (aSet t k v) k d = v := by
  simp [aGet, lookup_aSet_self]

/-- The persistent loop invokes exactly the listed handlers, in order. -/
theorem emitOnList_invoked (hsem : JSVal → Option JSVal) (l : List JSVal) :
    (emitOnList hsem l).1 = l := by
  induction l with
  | nil => rfl
  | cons h rest ih => simp [emitOnList, ih]

/-- The persistent loop logs exactly the exceptions its handlers throw. -/
theorem emitOnList_logs (hsem : JSVal → Option JSVal) (l : List JSVal) :
    (emitOnList hsem l).2 = l.filterMap hsem := by
  induction l with
  | nil => rfl
  | cons h rest ih =>
    simp only [emitOnList, ih, List.filterMap_cons, runHandler, callHandler]
    cases hsem h <;> simp

/-- Once the iteration index passes the array's length, the once loop stops
touching the array. -/
theorem emitOnceGo_stop (hsem : JSVal → Option JSVal) :
    ∀ (fuel : Nat) (cur : List JSVal) (k : Nat), cur.length ≤ k →
      emitOnceGo hsem cur k fuel = ([], [], cur) := by
  intro fuel
  induction fuel with
  | zero => intro cur k h; rfl
  | succ n ih =>
    intro cur k h
    have hg : cur[k]? = none := by
      rw [List.getElem?_eq_none_iff]
      exact h
    simp only [emitOnceGo, hg]
    exact ih cur (k + 1) (Nat.le_succ_of_le h)

/-- Which handlers the once loop invokes and what it leaves registered do not
depend on which handlers throw. -/
theorem emitOnceGo_indep (hsem hsem' : JSVal → Option JSVal) :
    ∀ (fuel : Nat) (cur : List JSVal) (k : Nat),
      (emitOnceGo hsem cur k fuel).1 = (emitOnceGo hsem' cur k fuel).1 ∧
      (emitOnceGo hsem cur k fuel).2.2 = (emitOnceGo hsem' cur k fuel).2.2 := by
  intro fuel
  induction fuel with
  | zero => intro cur k; exact ⟨rfl, rfl⟩
  | succ n ih =>
    intro cur k
    cases hg : cur[k]? with
    | none =>
      simp only [emitOnceGo, hg]
      exact ih cur (k + 1)
    | some h =>
      simp only [emitOnceGo, hg]
      exact ⟨by simp [(ih (cur.erase h) (k + 1)).1],
        by simp [(ih (cur.erase h) (k + 1)).2]⟩

/-- The once loop logs exactly the exceptions the invoked handlers throw. -/
theorem emitOnceGo_logs (hsem : JSVal → Option JSVal) :
    ∀ (fuel : Nat) (cur : List JSVal) (k : Nat),
      (emitOnceGo hsem cur k fuel).2.1 = (emitOnceGo hsem cur k fuel).1.filterMap hsem := by
  intro fuel
  induction fuel with
  | zero => intro cur k; rfl
  | succ n ih =>
    intro cur k
    cases hg : cur[k]? with
    | none =>
      simp only [emitOnceGo, hg]
      exact ih cur (k + 1)
    | some h =>
      simp only [emitOnceGo, hg, List.filterMap_cons, runHandler, callHandler,
        ih (cur.erase h) (k + 1)]
      cases hsem h <;> simp

/-- `===` on two function values compares their identities. -/
theorem fnBeq (a b : Nat) : ((JSVal.fn a : JSVal) == JSVal.fn b) = (a == b) := rfl

/-- Erasing a function value from a list of function values. -/
theorem fnErase (l : List Nat) (i : Nat) :
    (l.map JSVal.fn).erase (JSVal.fn i) = (l.erase i).map JSVal.fn := by
  induction l with
  | nil => rfl
  | cons a t ih =>
    by_cases h : a = i
    · subst h
      have h1 : ((JSVal.fn a : JSVal) == JSVal.fn a) = true := by rw [fnBeq]; simp
      have h2 : (a == a) = true := by simp
      simp [List.erase_cons, h1, h2]
    · have hb : (a == i) = false := beq_eq_false_iff_ne.mpr h
      have hb2 : ((JSVal.fn a : JSVal) == JSVal.fn i) = false := by rw [fnBeq, hb]
      simp [List.erase_cons, hb, hb2, ih]

/-- Unfolding `evens` one element at a time. -/
theorem evens_cons {α : Type} (x : α) (l : List α) : evens (x :: l) = x :: odds l := by
  cases l <;> simp [evens, odds]

/-- The even-indexed elements form a sublist. -/
theorem evens_sublist {α : Type} : ∀ (l : List α), List.Sublist (evens l) l
  | [] => by simp [evens]
  | [a] => by simp [evens]
  | a :: b :: r => by
    rw [show evens (a :: b :: r) = a :: evens r from rfl]
    exact List.Sublist.cons₂ a ((evens_sublist r).cons b)

/-- The odd-indexed elements form a sublist. -/
theorem odds_sublist {α : Type} (l : List α) : List.Sublist (odds l) l := by
  cases l with
  | nil => simp [odds]
  | cons a t => exact ((evens_sublist t).cons a : List.Sublist (evens t) (a :: t))

/-- Behaviour of the `forEach`+`splice` once loop on an array of pairwise
distinct handlers: starting at index `pre.length` with contents `pre ++ rest`
and at least `rest.length` iterations of fuel left, it invokes exactly the
even-indexed elements of `rest` and leaves `pre` followed by the odd-indexed
elements of `rest`. -/
theorem emitOnceGo_fn (hsem : JSVal → Option JSVal) :
    ∀ (fuel : Nat) (pre rest : List Nat), (pre ++ rest).Nodup → rest.length ≤ fuel →
      (emitOnceGo hsem ((pre ++ rest).map JSVal.fn) pre.length fuel).1
          = (evens rest).map JSVal.fn ∧
      (emitOnceGo hsem ((pre ++ rest).map JSVal.fn) pre.length fuel).2.2
          = (pre ++ odds rest).map JSVal.fn := by
  intro fuel
  induction fuel with
  | zero =>
    intro pre rest hnd hlen
    have : rest = [] := List.length_eq_zero.mp (Nat.le_zero.mp hlen)
    subst this
    simp [emitOnceGo, evens, odds]
  | succ n ih =>
    intro pre rest hnd hlen
    match rest with
    | [] =>
      have hstop := emitOnceGo_stop hsem (n + 1) ((pre ++ []).map JSVal.fn) pre.length
        (by simp)
      rw [hstop]
      simp [evens, odds]
    | h :: t =>
      have hget : ((pre ++ h :: t).map JSVal.fn)[pre.length]? = some (JSVal.fn h) := by
        rw [List.getElem?_map, List.getElem?_append_right (Nat.le_refl _)]
        simp
      have hnmem : h ∉ pre := by
        intro hmem
        exact (List.nodup_append.mp hnd).2.2 hmem (List.mem_cons_self h t)
      have herase : ((pre ++ h :: t).map JSVal.fn).erase (JSVal.fn h)
          = (pre ++ t).map JSVal.fn := by
        rw [fnErase, List.erase_append_right _ hnmem, List.erase_cons_head]
      simp only [emitOnceGo, hget, herase]
      match t with
      | [] =>
        have hstop := emitOnceGo_stop hsem n ((pre ++ []).map JSVal.fn) (pre.length + 1)
          (by simp)
        rw [hstop]
        simp [evens, odds]
      | h2 :: t2 =>
        have hre : ((pre ++ [h2]) ++ t2) = (pre ++ h2 :: t2) := by simp
        have hlen2 : ((pre ++ [h2])).length = pre.length + 1 := by simp
        have hnd2 : ((pre ++ [h2]) ++ t2).Nodup := by
          rw [hre]
          refine List.Nodup.sublist ?_ hnd
          exact List.Sublist.append_left (List.sublist_cons_self h (h2 :: t2)) pre
        have hlen3 : t2.length ≤ n := by
          simp at hlen; omega
        have hih := ih (pre ++ [h2]) t2 hnd2 hlen3
        rw [hlen2, hre] at hih
        refine ⟨?_, ?_⟩
        · rw [hih.1]
          simp [evens]
        · rw [hih.2]
          have : odds (h :: h2 :: t2) = h2 :: odds t2 := by
            show evens (h2 :: t2) = h2 :: odds t2
            exact evens_cons h2 t2
          rw [this]
          simp

/-- `emit` leaves `error` untouched. -/
theorem emit_res_error (hsem : JSVal → Option JSVal) (r : Resource) (E : String) :
    (Resource.emit hsem r E).res.error = r.error := by
  cases hk : List.lookup ("on" ++ E) r.onceListeners <;> simp [Resource.emit, hk]

/-- `emit` leaves `data` untouched. -/
theorem emit_res_data (hsem : JSVal → Option JSVal) (r : Resource) (E : String) :
    (Resource.emit hsem r E).res.data = r.data := by
  cases hk : List.lookup ("on" ++ E) r.onceListeners <;> simp [Resource.emit, hk]

/-- `emit` leaves the persistent listener table untouched. -/
theorem emit_res_listeners (hsem : JSVal → Option JSVal) (r : Resource) (E : String) :
    (Resource.emit hsem r E).res.listeners = r.listeners := by
  cases hk : List.lookup ("on" ++ E) r.onceListeners <;> simp [Resource.emit, hk]

/-- `emit`'s resulting state and invocation sequence do not depend on which
handlers throw. -/
theorem emit_indep (hsem hsem' : JSVal → Option JSVal) (r : Resource) (E : String) :
    (Resource.emit hsem r E).res = (Resource.emit hsem' r E).res ∧
    (Resource.emit hsem r E).invoked = (Resource.emit hsem' r E).invoked := by
  cases hk : List.lookup ("on" ++ E) r.onceListeners with
  | none => simp [Resource.emit, hk, emitOnList_invoked]
  | some a =>
    have h1 := emitOnceGo_indep hsem hsem' a.length a 0
    simp [Resource.emit, hk, emitOnList_invoked, h1.1, h1.2]

/-- `emit` logs exactly the exceptions thrown by its invoked handlers. -/
theorem emit_logs (hsem : JSVal → Option JSVal) (r : Resource) (E : String) :
    (Resource.emit hsem r E).logs = (Resource.emit hsem r E).invoked.filterMap hsem := by
  cases hk : List.lookup ("on" ++ E) r.onceListeners with
  | none => simp [Resource.emit, hk, emitOnList_logs, emitOnList_invoked]
  | some a =>
    simp [Resource.emit, hk, emitOnList_invoked, emitOnList_logs,
      emitOnceGo_logs, List.filterMap_append]

/-- One `emit` on a resource whose once array under `'on' + E` holds pairwise
distinct handlers: the persistent handlers run first, then the even-indexed
once handlers; the odd-indexed once handlers stay registered; the persistent
table is untouched. -/
theorem emit_once_spec (hsem : JSVal → Option JSVal) (r : Resource) (E : String)
    (ids : List Nat)
    (h1 : List.lookup ("on" ++ E) r.onceListeners = some (ids.map JSVal.fn))
    (h2 : ids.Nodup) :
    (Resource.emit hsem r E).invoked
        = aGet r.listeners ("on" ++ E) [] ++ (evens ids).map JSVal.fn ∧
    (Resource.emit hsem r E).res.onceListeners
        = aSet r.onceListeners ("on" ++ E) ((odds ids).map JSVal.fn) ∧
    (Resource.emit hsem r E).res.listeners = r.listeners := by
  have hmain := emitOnceGo_fn hsem ids.length ([] : List Nat) ids (by simpa) (Nat.le_refl _)
  simp only [List.nil_append, List.length_nil] at hmain
  have hlen : (ids.map JSVal.fn).length = ids.length := by simp
  simp [Resource.emit, h1, emitOnList_invoked, hlen, hmain.1, hmain.2]

/- Claim theorems. -/

/-- C1, counterexample: the claim fails on the code.  `on('Error', h)` stores
`h` under the key `'Error'` verbatim, while `emit('Error')` reads the key
`'onError'`, so registering a persistent handler for event `Error` and emitting
`Error` twice invokes the handler zero times, not twice. -/
theorem c1_counterexample :
    ((Resource.emit hsemNone (resEmpty.on "Error" (JSVal.fn 7)) "Error").invoked
      ++ (Resource.emit hsemNone
            (Resource.emit hsemNone (resEmpty.on "Error" (JSVal.fn 7)) "Error").res
            "Error").invoked).count (JSVal.fn 7) = 0 := by decide

/-- C1, amended: `on(K, h)` appends `h` to the ordered persistent-handler list
under the key `K` exactly as given (no `'on'` prefixing or capitalization);
`emit(E)` invokes the handlers stored under the key `'on' + E`.  Hence a
handler registered under the key `'on' + E` (as `update` does for config keys)
runs on each `emit(E)`, after previously registered handlers, and two emits
invoke a fresh such handler exactly twice. -/
theorem c1_theorem (r : Resource) (E : String) (i : Nat) (hsem : JSVal → Option JSVal)
    (h1 : List.lookup ("on" ++ E) r.onceListeners = none)
    (h2 : (aGet r.listeners ("on" ++ E) []).count (JSVal.fn i) = 0) :
    (Resource.emit hsem (r.on ("on" ++ E) (JSVal.fn i)) E).invoked
        = aGet r.listeners ("on" ++ E) [] ++ [JSVal.fn i] ∧
    (Resource.emit hsem
        (Resource.emit hsem (r.on ("on" ++ E) (JSVal.fn i)) E).res E).invoked
        = aGet r.listeners ("on" ++ E) [] ++ [JSVal.fn i] ∧
    ((Resource.emit hsem (r.on ("on" ++ E) (JSVal.fn i)) E).invoked
      ++ (Resource.emit hsem
            (Resource.emit hsem (r.on ("on" ++ E) (JSVal.fn i)) E).res E).invoked).count
        (JSVal.fn i) = 2 := by
  have hA : (Resource.emit hsem (r.on ("on" ++ E) (JSVal.fn i)) E).invoked
      = aGet r.listeners ("on" ++ E) [] ++ [JSVal.fn i] := by
    simp [Resource.emit, Resource.on, onAdd, h1, emitOnList_invoked, aGet_aSet_self,
      jsConcatOne, jsSpread]
  have hres : (Resource.emit hsem (r.on ("on" ++ E) (JSVal.fn i)) E).res
      = r.on ("on" ++ E) (JSVal.fn i) := by
    simp [Resource.emit, Resource.on, onAdd, h1]
  have hB : (Resource.emit hsem
      (Resource.emit hsem (r.on ("on" ++ E) (JSVal.fn i)) E).res E).invoked
      = aGet r.listeners ("on" ++ E) [] ++ [JSVal.fn i] := by
    rw [hres]; exact hA
  refine ⟨hA, hB, ?_⟩
  rw [hA, hB]
  simp [List.count_append, h2, List.count_cons, fnBeq]

/-- C1, witness: the amended theorem at the empty resource, event `Error`,
handler `fn 7`. -/
theorem c1_witness :
    ((Resource.emit hsemNone (resEmpty.on ("on" ++ "Error") (JSVal.fn 7)) "Error").invoked
      ++ (Resource.emit hsemNone
            (Resource.emit hsemNone (resEmpty.on ("on" ++ "Error") (JSVal.fn 7)) "Error").res
            "Error").invoked).count (JSVal.fn 7) = 2 :=
  (c1_theorem resEmpty "Error" 7 hsemNone rfl rfl).2.2

/-- C2, counterexample: the claim fails on the code.  First, a handler
registered by `once('Success', h)` and emitted via `emit('Success')` is never
invoked (key mismatch, as in C1).  Second, with two once-handlers registered
under the key `'onSuccess'`, one `emit('Success')` invokes only the first —
the `splice` during `forEach` shifts the array so the second is skipped — and
leaves the second registered, so the once list is not empty after the emit. -/
theorem c2_counterexample :
    ((Resource.emit hsemNone (resEmpty.once "Success" (JSVal.fn 5)) "Success").invoked
      ++ (Resource.emit hsemNone
            (Resource.emit hsemNone (resEmpty.once "Success" (JSVal.fn 5)) "Success").res
            "Success").invoked).count (JSVal.fn 5) = 0 ∧
    (Resource.emit hsemNone resOnce2 "Success").invoked.count (JSVal.fn 2) = 0 ∧
    aGet (Resource.emit hsemNone resOnce2 "Success").res.onceListeners "onSuccess" []
      = [JSVal.fn 2] :=
  ⟨by decide, by decide, rfl⟩

/-- C2, amended: when the once array under key `'on' + E` holds pairwise
distinct handlers, `emit(E)` invokes (after the persistent handlers) exactly
the even-indexed once handlers, removing each invoked one, and leaves exactly
the odd-indexed ones registered; a second `emit(E)` then invokes the
even-indexed ones of the remainder.  In particular a single once-handler
registered under `'on' + E` is invoked exactly once across two emits. -/
theorem c2_theorem (hsem : JSVal → Option JSVal) (r : Resource) (E : String)
    (ids : List Nat)
    (h1 : List.lookup ("on" ++ E) r.onceListeners = some (ids.map JSVal.fn))
    (h2 : ids.Nodup) :
    (Resource.emit hsem r E).invoked
        = aGet r.listeners ("on" ++ E) [] ++ (evens ids).map JSVal.fn ∧
    (Resource.emit hsem r E).res.onceListeners
        = aSet r.onceListeners ("on" ++ E) ((odds ids).map JSVal.fn) ∧
    (Resource.emit hsem (Resource.emit hsem r E).res E).invoked
        = aGet r.listeners ("on" ++ E) [] ++ (evens (odds ids)).map JSVal.fn := by
  have hfirst := emit_once_spec hsem r E ids h1 h2
  refine ⟨hfirst.1, hfirst.2.1, ?_⟩
  have h1' : List.lookup ("on" ++ E) (Resource.emit hsem r E).res.onceListeners
      = some ((odds ids).map JSVal.fn) := by
    rw [hfirst.2.1]; exact lookup_aSet_self _ _ _
  have h2' : (odds ids).Nodup := List.Nodup.sublist (odds_sublist ids) h2
  have hsecond := emit_once_spec hsem (Resource.emit hsem r E).res E (odds ids) h1' h2'
  rw [hsecond.1, hfirst.2.2]

/-- C2, witness: the amended theorem on the fixture with once handlers
`fn 1, fn 2` under key `'onSuccess'`: the first emit invokes only `fn 1` and
leaves `fn 2`; the second emit invokes `fn 2`. -/
theorem c2_witness :
    (Resource.emit hsemNone resOnce2 "Success").invoked
        = aGet resOnce2.listeners ("on" ++ "Success") [] ++ (evens [1, 2]).map JSVal.fn ∧
    (Resource.emit hsemNone resOnce2 "Success").res.onceListeners
        = aSet resOnce2.onceListeners ("on" ++ "Success") ((odds [1, 2]).map JSVal.fn) ∧
    (Resource.emit hsemNone (Resource.emit hsemNone resOnce2 "Success").res "Success").invoked
        = aGet resOnce2.listeners ("on" ++ "Success") [] ++ (evens (odds [1, 2])).map JSVal.fn :=
  c2_theorem hsemNone resOnce2 "Success" [1, 2] rfl (by decide)

/-- C3: every handler invocation during `emit` is isolated.  The resulting
state and the invocation sequence do not depend on which handlers throw
(`hsem` vs `hsem'`), the thrown exceptions are exactly what gets logged, and
`emit` is a total function (no exception escapes it); consequently `fetch`
still sets `lastLoaded` to the current time and `loading` to `false` as its
final step whatever the handlers throw. -/
theorem c3_theorem (hsem hsem' : JSVal → Option JSVal) (condSem : JSVal → Bool)
    (r : Resource) (E : String) (outcome : CallOutcome) (now : Nat)
    (hc : evalCond condSem r.condition = true) :
    (Resource.emit hsem r E).res = (Resource.emit hsem' r E).res ∧
    (Resource.emit hsem r E).invoked = (Resource.emit hsem' r E).invoked ∧
    (Resource.emit hsem r E).logs = (Resource.emit hsem r E).invoked.filterMap hsem ∧
    (Resource.fetch hsem condSem r outcome now).res.lastLoaded = some now ∧
    (Resource.fetch hsem condSem r outcome now).res.loading = false := by
  refine ⟨(emit_indep hsem hsem' r E).1, (emit_indep hsem hsem' r E).2,
    emit_logs hsem r E, ?_, ?_⟩ <;>
  cases outcome <;> simp [Resource.fetch, hc]

/-- C3, witness: the theorem with every handler throwing (`hsemBoom`)
against none throwing, on the empty resource. -/
theorem c3_witness :
    (Resource.emit hsemBoom resEmpty "Success").res
        = (Resource.emit hsemNone resEmpty "Success").res ∧
    (Resource.emit hsemBoom resEmpty "Success").invoked
        = (Resource.emit hsemNone resEmpty "Success").invoked ∧
    (Resource.emit hsemBoom resEmpty "Success").logs
        = (Resource.emit hsemBoom resEmpty "Success").invoked.filterMap hsemBoom ∧
    (Resource.fetch hsemBoom condSemTrue resEmpty (.ok JSVal.null) 5).res.lastLoaded
        = some 5 ∧
    (Resource.fetch hsemBoom condSemTrue resEmpty (.ok JSVal.null) 5).res.loading = false :=
  c3_theorem hsemBoom hsemNone condSemTrue resEmpty "Success" (.ok JSVal.null) 5 rfl

/-- C4, counterexample: the claim fails on the code.  For a paged resource
whose `data` is the sequence `[1]`, a successful call returning the non-array
`5` replaces `data` outright with `5` — `data` is no longer a sequence and did
not grow by concatenation, because the source concatenates only when
`Array.isArray(data)` holds. -/
theorem c4_counterexample :
    truthy pagedRes.paged = true ∧
    (Resource.fetch hsemNone condSemTrue
        ({ pagedRes with data := JSVal.arr [JSVal.num 1] })
        (.ok (JSVal.num 5)) 0).res.data = JSVal.num 5 ∧
    jsIsArray (Resource.fetch hsemNone condSemTrue
        ({ pagedRes with data := JSVal.arr [JSVal.num 1] })
        (.ok (JSVal.num 5)) 0).res.data = false :=
  ⟨rfl, rfl, rfl⟩

/-- C4, amended: for a paged resource, a successful fetch whose result is a
sequence concatenates it onto `data` (a `null` prior `data` acting as the
empty sequence): sequential fetches returning `[a]` then `[b]` leave
`data = [a, b]`.  A successful non-sequence result replaces `data` outright. -/
theorem c4_theorem (a b : JSVal) (o : List (String × JSVal))
    (hsem : JSVal → Option JSVal) (condSem : JSVal → Bool) (n1 n2 : Nat) :
    (Resource.fetch hsem condSem pagedRes (.ok (JSVal.arr [a])) n1).res.data
        = JSVal.arr [a] ∧
    (Resource.fetch hsem condSem
        ((Resource.fetch hsem condSem pagedRes (.ok (JSVal.arr [a])) n1).res)
        (.ok (JSVal.arr [b])) n2).res.data = JSVal.arr [a, b] ∧
    (Resource.fetch hsem condSem pagedRes (.ok (JSVal.obj o)) n1).res.data
        = JSVal.obj o ∧
    (∀ (r : Resource) (l : List JSVal) (n : Nat),
      (Resource.fetch hsem condSem
          { r with paged := JSVal.bool true, condition := CondVal.default }
          (.ok (JSVal.arr l)) n).res.data
        = JSVal.arr (jsSpread (jsOr r.data (JSVal.arr [])) ++ l)) := by
  refine ⟨rfl, rfl, rfl, ?_⟩
  intro r l n
  simp [Resource.fetch, evalCond, jsIsArray, truthy, emit_res_data, jsSpread]

/-- C5: when the call collaborator rejects with an error carrying a messages
list, `fetch` sets `error` to the newline-joined messages, emits an `Error`
event with that string, and then sets `lastLoaded` and `loading = false`.
`Resource.fetch` is a total function of the settled outcome — the rejection is
consumed by the `catch` block and never re-thrown to the caller. -/
theorem c5_theorem (hsem : JSVal → Option JSVal) (condSem : JSVal → Bool)
    (r : Resource) (msgs : List String) (now : Nat)
    (hc : evalCond condSem r.condition = true) :
    (Resource.fetch hsem condSem r (.err msgs) now).res.error
        = JSVal.str (String.intercalate "\n" msgs) ∧
    (Resource.fetch hsem condSem r (.err msgs) now).emitted
        = [("Error", JSVal.str (String.intercalate "\n" msgs))] ∧
    (Resource.fetch hsem condSem r (.err msgs) now).res.lastLoaded = some now ∧
    (Resource.fetch hsem condSem r (.err msgs) now).res.loading = false := by
  simp [Resource.fetch, hc, emit_res_error]

/-- C5, witness: the theorem at the empty resource with messages
`["a", "b"]` at time 9. -/
theorem c5_witness :
    (Resource.fetch hsemNone condSemTrue resEmpty (.err ["a", "b"]) 9).res.error
        = JSVal.str (String.intercalate "\n" ["a", "b"]) ∧
    (Resource.fetch hsemNone condSemTrue resEmpty (.err ["a", "b"]) 9).emitted
        = [("Error", JSVal.str (String.intercalate "\n" ["a", "b"]))] ∧
    (Resource.fetch hsemNone condSemTrue resEmpty (.err ["a", "b"]) 9).res.lastLoaded
        = some 9 ∧
    (Resource.fetch hsemNone condSemTrue resEmpty (.err ["a", "b"]) 9).res.loading = false :=
  c5_theorem hsemNone condSemTrue resEmpty ["a", "b"] 9 rfl

/-- C6: when `condition()` is `false`, `fetch` returns immediately with the
resource unchanged and nothing emitted, invoked or logged; when `condition()`
is `true`, `lastLoaded` is set to the current time after the attempt. -/
theorem c6_theorem (hsem : JSVal → Option JSVal) (condSem : JSVal → Bool)
    (r : Resource) (outcome : CallOutcome) (now : Nat) :
    (evalCond condSem r.condition = false →
        Resource.fetch hsem condSem r outcome now = ⟨r, [], [], []⟩) ∧
    (evalCond condSem r.condition = true →
        (Resource.fetch hsem condSem r outcome now).res.lastLoaded = some now) := by
  constructor
  · intro hc
    simp [Resource.fetch, hc]
  · intro hc
    cases outcome <;> simp [Resource.fetch, hc]

/-- C6, witness: both parts of the theorem — the skip on a resource whose
condition evaluates to `false`, and `lastLoaded` after a real attempt. -/
theorem c6_witness :
    Resource.fetch hsemNone condSemFalse resCond (.ok (JSVal.num 3)) 4
        = ⟨resCond, [], [], []⟩ ∧
    (Resource.fetch hsemNone condSemTrue resEmpty (.ok (JSVal.num 3)) 4).res.lastLoaded
        = some 4 :=
  ⟨(c6_theorem hsemNone condSemFalse resCond (.ok (JSVal.num 3)) 4).1 rfl,
   (c6_theorem hsemNone condSemTrue resEmpty (.ok (JSVal.num 3)) 4).2 rfl⟩

/-- C7: `update` throws exactly when the resource's `method` is truthy, the
normalized new config's `method` is truthy, and the two differ under `===`;
every successful update preserves `method` (update never assigns it); and an
update whose normalized config omits `method` succeeds and preserves the
existing method.  In the source the throw precedes every field assignment, so
an erroring update mutates nothing — in this embedding it returns the error
alone. -/
theorem c7_theorem (r : Resource) (opts iv : JSVal) :
    ((∃ e, Resource.update r opts iv = Except.error e) ↔
      (truthy r.method && truthy (getProp (normalizeOptions opts) "method")
        && !(jsStrictEq (getProp (normalizeOptions opts) "method") r.method)) = true) ∧
    (∀ ru, Resource.update r opts iv = Except.ok ru → ru.method = r.method) ∧
    (getProp (normalizeOptions opts) "method" = JSVal.undefined →
      ∃ ru, Resource.update r opts iv = Except.ok ru ∧ ru.method = r.method) := by
  cases hg : truthy r.method && truthy (getProp (normalizeOptions opts) "method")
      && !(jsStrictEq (getProp (normalizeOptions opts) "method") r.method) with
  | true =>
    have hupd : Resource.update r opts iv
        = Except.error "[Resource Manager]: method cannot change for the same resource" := by
      simp [Resource.update, hg]
    refine ⟨⟨fun _ => rfl, fun _ => ⟨_, hupd⟩⟩, ?_, ?_⟩
    · intro ru h
      rw [hupd] at h
      exact absurd h (by simp)
    · intro hm
      rw [hm] at hg
      simp [truthy] at hg
  | false =>
    have hmeth : ∀ ru, Resource.update r opts iv = Except.ok ru → ru.method = r.method := by
      have hm2 : (Resource.update r opts iv).map Resource.method = Except.ok r.method := by
        simp [Resource.update, hg, Except.map]
      intro ru h
      rw [h] at hm2
      simpa [Except.map] using hm2
    refine ⟨⟨?_, ?_⟩, hmeth, ?_⟩
    · rintro ⟨e, he⟩
      simp [Resource.update, hg] at he
    · intro h
      exact absurd h (by simp)
    · intro hm
      cases hupd2 : Resource.update r opts iv with
      | error e => exact absurd hupd2 (by simp [Resource.update, hg])
      | ok ru => exact ⟨ru, rfl, hmeth ru hupd2⟩

/-- C7, witness: updating a resource with method `"a"` by a config with
method `"b"` errors; updating by a config without `method` succeeds and keeps
the method. -/
theorem c7_witness :
    (∃ e, Resource.update { resEmpty with method := JSVal.str "a" } cfgMethodB JSVal.undefined
      = Except.error e) ∧
    (∃ ru, Resource.update resEmpty (JSVal.obj [("params", JSVal.num 3)]) JSVal.undefined
      = Except.ok ru ∧ ru.method = resEmpty.method) :=
  ⟨(c7_theorem { resEmpty with method := JSVal.str "a" } cfgMethodB JSVal.undefined).1.mpr rfl,
   (c7_theorem resEmpty (JSVal.obj [("params", JSVal.num 3)]) JSVal.undefined).2.2 rfl⟩

/-- C8, counterexample: the claim fails on the code.  A config key
`onceSuccess` does not become a one-shot handler for event `Success`: `update`
filters keys by `startsWith('on')` — which `onceSuccess` satisfies — and
registers every one through `on`, under the literal key.  The handler lands in
the persistent table under the key `'onceSuccess'`, which `emit('Success')`
(reading `'onSuccess'`) never consults, and the once table stays empty; the
handler is never invoked. -/
theorem c8_counterexample :
    (Resource.emit hsemNone c8fix "Success").invoked.count (JSVal.fn 3) = 0 ∧
    c8fix.onceListeners = [] ∧
    aGet c8fix.listeners "onceSuccess" [] = [JSVal.fn 3] :=
  ⟨by decide, rfl, rfl⟩

/-- C8, amended: `update` rebuilds the listener tables from scratch, but all
`'on'`-prefixed config keys (including those starting with `'once'`) are
registered as persistent handlers under the literal config key, and the once
table is always left empty.  A key `'on' + E` is invoked by every `emit(E)`
(not one-shot); a key `'once' + E` is stored under `'once' + E` and is never
invoked by `emit(E)`. -/
theorem c8_theorem (i j : Nat) (hsem : JSVal → Option JSVal) :
    (c8res i j).onceListeners = [] ∧
    (c8res i j).listeners
      = [("onSuccess", [JSVal.fn i]), ("onceSuccess", [JSVal.fn j])] ∧
    (Resource.emit hsem (c8res i j) "Success").invoked = [JSVal.fn i] ∧
    (Resource.emit hsem
      (Resource.emit hsem (c8res i j) "Success").res "Success").invoked = [JSVal.fn i] :=
  ⟨rfl, rfl, rfl, rfl⟩

/-- C9: `updateResource` reuses the resource registered under `key` and
otherwise constructs and registers a fresh one from `newValue`; `cancel()` (a
safe no-op) is applied when an `oldValue` was present; `data` is snapshotted
before `update(newValue)` and restored afterwards when the updated resource's
`keepData` is truthy; the returned flag says whether a truthy `auto` triggered
`reload()`. -/
theorem c9_theorem (st : RMState) (key : String) (nv ov : JSVal) :
    (∀ r₀ ru, List.lookup key st.resources = some r₀ →
      Resource.update r₀ nv JSVal.undefined = Except.ok ru →
      ResourceManager.updateResource st key nv ov
        = Except.ok (⟨aSet st.resources key
            (if truthy ru.keepData then { ru with data := r₀.data } else ru)⟩,
          truthy ru.auto)) ∧
    (∀ rc ru, List.lookup key st.resources = none →
      Resource.construct nv JSVal.undefined = Except.ok rc →
      Resource.update rc nv JSVal.undefined = Except.ok ru →
      ResourceManager.updateResource st key nv ov
        = Except.ok (⟨aSet st.resources key
            (if truthy ru.keepData then { ru with data := rc.data } else ru)⟩,
          truthy ru.auto)) ∧
    (∀ rr : Resource, Resource.cancel rr = rr) := by
  refine ⟨?_, ?_, fun rr => rfl⟩
  · intro r₀ ru h1 h2
    simp [ResourceManager.updateResource, h1, updateResourceCore, Resource.cancel,
      ite_self, h2]
    split <;> rfl
  · intro rc ru h1 h2 h3
    simp [ResourceManager.updateResource, h1, h2, updateResourceCore, Resource.cancel,
      ite_self, h3]
    split <;> rfl

/-- C9, witness: the spec's example — an existing resource with
`data = {x: 1}` updated with `keepData: true` and new `params` keeps
`data = {x: 1}` while `params` becomes the new value. -/
theorem c9_witness :
    ResourceManager.updateResource stKeep "search" nvKeep (JSVal.obj [("q", JSVal.num 1)])
      = Except.ok (⟨aSet stKeep.resources "search" ruKeepFinal⟩, truthy ruKeep.auto) ∧
    ruKeepFinal.data = JSVal.obj [("x", JSVal.num 1)] ∧
    ruKeepFinal.params = JSVal.obj [("q", JSVal.num 2)] ∧
    truthy ruKeep.auto = false :=
  ⟨(c9_theorem stKeep "search" nvKeep (JSVal.obj [("q", JSVal.num 1)])).1 resKeep ruKeep
      rfl rfl,
   rfl, rfl, rfl⟩

/-- C10: the resets of `data` and `params` in `update` test truthiness, not
presence — when the supplied initial value and the config's `default` are both
falsy, `data` becomes `null`; a falsy `params` becomes `null`.  (The
constructor finishes through `update`, so this covers construction too.) -/
theorem c10_theorem (r : Resource) (opts iv : JSVal) (ru : Resource)
    (h : Resource.update r opts iv = Except.ok ru) :
    (truthy iv = false →
      truthy (getProp (normalizeOptions opts) "default") = false →
      ru.data = JSVal.null) ∧
    (truthy (getProp (normalizeOptions opts) "params") = false →
      ru.params = JSVal.null) := by
  cases hg : truthy r.method && truthy (getProp (normalizeOptions opts) "method")
      && !(jsStrictEq (getProp (normalizeOptions opts) "method") r.method) with
  | true =>
    rw [show Resource.update r opts iv
        = Except.error "[Resource Manager]: method cannot change for the same resource" from
      by simp [Resource.update, hg]] at h
    exact absurd h (by simp)
  | false =>
    have hd : (Resource.update r opts iv).map Resource.data
        = Except.ok (jsOr iv (jsOr (getProp (normalizeOptions opts) "default") JSVal.null)) := by
      simp [Resource.update, hg, Except.map]
    have hp : (Resource.update r opts iv).map Resource.params
        = Except.ok (jsOr (getProp (normalizeOptions opts) "params") JSVal.null) := by
      simp [Resource.update, hg, Except.map]
    rw [h] at hd hp
    simp only [Except.map] at hd hp
    constructor
    · intro h1 h2
      have h3 := hd
      simp [jsOr, h1, h2] at h3
      exact h3
    · intro h1
      have h3 := hp
      simp [jsOr, h1] at h3
      exact h3

/-- C10, witness: the theorem at initial value `false`, `default` the empty
string and `params` the number 0 — all falsy — giving `data = null` and
`params = null`. -/
theorem c10_witness :
    truthy (JSVal.bool false) = false ∧
    truthy (getProp (normalizeOptions cfgFalsy) "default") = false ∧
    truthy (getProp (normalizeOptions cfgFalsy) "params") = false ∧
    ruFalsy.data = JSVal.null ∧ ruFalsy.params = JSVal.null :=
  ⟨rfl, rfl, rfl,
   (c10_theorem resEmpty cfgFalsy (JSVal.bool false) ruFalsy rfl).1 rfl rfl,
   (c10_theorem resEmpty cfgFalsy (JSVal.bool false) ruFalsy rfl).2 rfl⟩
